import Mathlib

/-!
Verification of the mini-mixlr room / signaling / fan-out server
(src/main.go of Manuel-Technologies/mini-mixlr).

The Go program is shallowly embedded: peer connections are abstract
identifiers, the `webrtc.PeerConnection` negotiation surface is a pure
state record with an operation log, the websocket message loop is a
function over a finite list of inbound transport events, and Go's
`encoding/json` behaviour on `map[string]json.RawMessage` is modelled
explicitly (the raw bytes of a JSON string value include the quotes).
-/

namespace MiniMixlr

/-! ## JSON values and `encoding/json` raw-message semantics

`json.Unmarshal(msg, &msgMap)` with `msgMap : map[string]json.RawMessage`
succeeds exactly on JSON objects and stores, for every key, the raw bytes
of the value.  `string(msgMap["k"])` therefore yields the value's JSON
text: for a string value that text includes the surrounding quotes. -/

mutual
inductive J where
  | str (s : String)
  | num (n : Int)
  | boolean (b : Bool)
  | null
  | obj (fs : JFields)
  | arr (xs : JList)
deriving DecidableEq, Repr

inductive JFields where
  | nil
  | cons (key : String) (val : J) (rest : JFields)
deriving DecidableEq, Repr

inductive JList where
  | nil
  | cons (head : J) (tail : JList)
deriving DecidableEq, Repr
end

mutual
/-- The serialized JSON text of a value, as `json.RawMessage` carries it.
A string value serializes with its surrounding quotes. -/
def rawText : J → String
  | .str s => "\"" ++ s ++ "\""
  | .num n => toString n
  | .boolean b => if b then "true" else "false"
  | .null => "null"
  | .obj fs => "\x7b" ++ rawFields fs ++ "\x7d"
  | .arr xs => "[" ++ rawElems xs ++ "]"

def rawFields : JFields → String
  | .nil => ""
  | .cons k v .nil => "\"" ++ k ++ "\":" ++ rawText v
  | .cons k v (.cons k2 v2 rest) =>
      "\"" ++ k ++ "\":" ++ rawText v ++ "," ++ rawFields (.cons k2 v2 rest)

def rawElems : JList → String
  | .nil => ""
  | .cons x .nil => rawText x
  | .cons x (.cons y rest) => rawText x ++ "," ++ rawElems (.cons y rest)
end

/-- Field lookup in a JSON object (the frames the server handles carry
pairwise-distinct keys, so first-match lookup coincides with Go's map). -/
def JFields.lookup : JFields → String → Option J
  | .nil, _ => none
  | .cons k v rest, key => if k = key then some v else rest.lookup key

/-- An inbound websocket text frame: either bytes that fail to parse as a
JSON value, or a parsed JSON value. -/
inductive InboundMsg where
  | malformed
  | json (j : J)
deriving DecidableEq, Repr

/-- `json.Unmarshal(msg, &msgMap)` for `map[string]json.RawMessage`:
succeeds exactly when the frame is a JSON object. -/
def unmarshalMap : InboundMsg → Option JFields
  | .malformed => none
  | .json (.obj fs) => some fs
  | .json _ => none

/-! ## The media-endpoint surface (external collaborator)

`webrtc.PeerConnection` is out of scope of the repository; it is embedded
as a pure record.  Each negotiation primitive appends its name to `log`,
so "no negotiation call happened" is expressible as state equality. -/

/-- `webrtc.SessionDescription`: a type tag and the SDP text. -/
structure SD where
  descType : String
  sdp : String
deriving DecidableEq, Repr

structure PCState where
  remoteDesc : Option SD
  localDesc : Option SD
  candidates : List String
  log : List String
deriving DecidableEq, Repr

def initPC : PCState := ⟨none, none, [], []⟩

def setRemoteDescription (pc : PCState) (sd : SD) : PCState :=
  { pc with remoteDesc := some sd, log := pc.log ++ ["setRemoteDescription"] }

/-- `pc.CreateAnswer(nil)`: produces an answer description derived from the
current remote description. -/
def createAnswer (pc : PCState) : SD × PCState :=
  (⟨"answer", "answer-to-" ++ ((pc.remoteDesc.map SD.sdp).getD "")⟩,
   { pc with log := pc.log ++ ["createAnswer"] })

def setLocalDescription (pc : PCState) (sd : SD) : PCState :=
  { pc with localDesc := some sd, log := pc.log ++ ["setLocalDescription"] }

def addICECandidate (pc : PCState) (c : String) : PCState :=
  { pc with candidates := pc.candidates ++ [c],
            log := pc.log ++ ["addICECandidate"] }

/-- Decoding `json.Unmarshal(raw, &offer)` for `webrtc.SessionDescription`:
requires an object whose `type` is one of the SDP type strings and whose
`sdp` is a string. -/
def decodeSD : Option J → Option SD
  | some (.obj fs) =>
      match fs.lookup "type", fs.lookup "sdp" with
      | some (.str t), some (.str s) =>
          if t = "offer" ∨ t = "pranswer" ∨ t = "answer" ∨ t = "rollback"
          then some ⟨t, s⟩ else none
      | _, _ => none
  | _ => none

/-- Decoding `json.Unmarshal(raw, &candidate)` for `webrtc.ICECandidateInit`. -/
def decodeCandidate : Option J → Option String
  | some (.obj fs) =>
      match fs.lookup "candidate" with
      | some (.str c) => some c
      | _ => none
  | _ => none

/-- A frame written back to the websocket by the message loop. -/
inductive OutFrame where
  | answer (sd : SD)
  | errorMsg (s : String)
  | candidate (c : String)
deriving DecidableEq, Repr

/-! ## The signaling message loop (`handleSignaling`, src/main.go 194-249)

One loop iteration: read a frame, unmarshal into
`map[string]json.RawMessage` (`continue` on failure), compute
`msgType := string(msgMap["type"])` — the raw JSON bytes of the `type`
value — and switch on it against the bare words `offer` / `answer` /
`candidate`. -/

/-- One iteration of the inbound message switch.  Returns the peer
connection state and the frames written back. -/
def handleMessage (isBroadcaster : Bool) (pc : PCState) (msg : InboundMsg) :
    PCState × List OutFrame :=
  match unmarshalMap msg with
  | none => (pc, [])
  | some m =>
    let msgType : String :=
      match m.lookup "type" with
      | some v => rawText v
      | none => ""
    if msgType = "offer" then
      if !isBroadcaster then (pc, [])
      else
        match decodeSD (m.lookup "sdp") with
        | none => (pc, [])
        | some offer =>
          let pc1 := setRemoteDescription pc offer
          let ap := createAnswer pc1
          let pc3 := setLocalDescription ap.2 ap.1
          (pc3, [OutFrame.answer ap.1])
    else if msgType = "answer" then
      if isBroadcaster then (pc, [])
      else
        match decodeSD (m.lookup "sdp") with
        | none => (pc, [])
        | some answer => (setRemoteDescription pc answer, [])
    else if msgType = "candidate" then
      match decodeCandidate (m.lookup "candidate") with
      | none => (pc, [])
      | some c => (addICECandidate pc c, [])
    else (pc, [])

/-- A transport event seen by the loop: a delivered frame, or a read
failure (`ws.ReadMessage` returning an error, which breaks the loop). -/
inductive InEvent where
  | frame (m : InboundMsg)
  | readErr
deriving DecidableEq, Repr

structure LoopResult where
  pcFinal : PCState
  sent : List OutFrame
  readFailed : Bool
deriving DecidableEq, Repr

/-- The message loop of `handleSignaling`, run over a finite prefix of
transport events.  It terminates (breaks) only on a read error. -/
def handleSignaling (isBroadcaster : Bool) (pc : PCState) :
    List InEvent → LoopResult
  | [] => ⟨pc, [], false⟩
  | .readErr :: _ => ⟨pc, [], true⟩
  | .frame m :: rest =>
    let r := handleMessage isBroadcaster pc m
    let res := handleSignaling isBroadcaster r.1 rest
    ⟨res.pcFinal, r.2 ++ res.sent, res.readFailed⟩

/-! ## Rooms and the registry (src/main.go 15-28, 37-62)

Peer connections are abstract identifiers (`Nat`).  `Listeners` is a
`map[*webrtc.PeerConnection]bool` used as a set; it is embedded as a
duplicate-free list.  The package-level `rooms` map is embedded as an
association list in which insertion conses, and lookup takes the first
match — observably Go-map assignment (overwrite) and lookup. -/

structure Room where
  name : String
  broadcaster : Option Nat
  listeners : List Nat
deriving DecidableEq, Repr

abbrev Registry := List (String × Room)

def lookupRoom : Registry → String → Option Room
  | [], _ => none
  | (k, r) :: rest, id => if k = id then some r else lookupRoom rest id

def insertRoom (reg : Registry) (id : String) (r : Room) : Registry :=
  (id, r) :: reg

/-! ### `randomHex` (src/main.go 252-256)

`rand.Read` fills `n` bytes from the process random source; the source is
embedded as an explicit stream `Nat → Nat` of bytes read at increasing
positions, so a sequence of calls is a deterministic function of the
stream.  `hex.EncodeToString` writes two lowercase hex digits per byte. -/

def drawBytes (rng : Nat → Nat) (pos n : Nat) : List Nat :=
  (List.range n).map (fun i => rng (pos + i) % 256)

/-- The digit characters of Go's hex table `0123456789abcdef`, by
character code: digits start at code 48, lowercase letters at code 97. -/
def hexDigit (n : Nat) : Char :=
  if n < 10 then Char.ofNat (48 + n) else Char.ofNat (87 + n)

def hexChars : List Nat → List Char
  | [] => []
  | b :: rest => hexDigit (b / 16) :: hexDigit (b % 16) :: hexChars rest

def hexEncode (bs : List Nat) : String := String.mk (hexChars bs)

def randomHex (rng : Nat → Nat) (pos n : Nat) : String :=
  hexEncode (drawBytes rng pos n)

/-! ### `createRoom` (src/main.go 37-51) -/

/-- The empty room inserted by `createRoom`. -/
def emptyRoom (id : String) : Room := ⟨id, none, []⟩

/-- `createRoom`: draw a fresh 6-byte random identifier, insert an empty
room under it (overwriting any room already mapped there), and respond
with the identifier and the join URL.  Returns the new registry, the
advanced stream position, and the response fields. -/
def createRoom (rng : Nat → Nat) (pos : Nat) (reg : Registry) :
    (Registry × Nat) × String × String :=
  let roomID := randomHex rng pos 6
  ((insertRoom reg roomID (emptyRoom roomID), pos + 6),
   roomID, "https://your-app.fly.dev/r/" ++ roomID)

/-- A sequence of `n` `createRoom` calls, threading registry and stream
position; also returns the identifiers in call order. -/
def createRooms (rng : Nat → Nat) (pos : Nat) (reg : Registry) :
    Nat → Registry × List String
  | 0 => (reg, [])
  | n + 1 =>
    let c := createRoom rng pos reg
    let rest := createRooms rng c.1.2 c.1.1 n
    (rest.1, c.2.1 :: rest.2)

/-! ### `joinRoom`, room-lookup prefix (src/main.go 53-62)

Before any websocket upgrade or state mutation, the handler looks the
room up under the registry read lock and answers
`http.Error(w, "Room not found", 404)` when it is absent. -/

inductive JoinEntryResult where
  | notFound (status : Nat) (body : String)
  | upgraded (room : Room)
deriving DecidableEq, Repr

/-- The prefix of `joinRoom` up to the websocket upgrade: pure in the
registry, so the not-found path provably changes no state. -/
def joinRoomEntry (reg : Registry) (roomName : String) : JoinEntryResult :=
  match lookupRoom reg roomName with
  | none => .notFound 404 "Room not found"
  | some room => .upgraded room

/-! ## The broadcaster-attach race (src/main.go 85-102)

The broadcaster path of `joinRoom` first reads `room.Broadcaster`
without holding `room.mu` (line 88) and, if it saw `nil`, later acquires
`room.mu` only around the assignment `room.Broadcaster = pc`
(lines 100-102).  Each attempt is therefore two separately scheduled
atomic steps: the unlocked check, then the locked assignment.  A
schedule is a list of attempt indices; running it interleaves the
attempts' steps. -/

inductive AttemptPhase where
  | start
  | checked
  | failed
  | succeeded
deriving DecidableEq, Repr

structure BroadcastRace where
  broadcaster : Option Nat
  phases : List AttemptPhase
deriving DecidableEq, Repr

/-- One scheduler step of attempt `i`: from `start`, perform the unlocked
`room.Broadcaster != nil` check (failing with the error frame when a
broadcaster is visible); from `checked`, perform the locked assignment
`room.Broadcaster = pc` and report success. -/
def raceStep (s : BroadcastRace) (i : Nat) : BroadcastRace :=
  match s.phases.get? i with
  | some .start =>
    if s.broadcaster.isSome
    then { s with phases := s.phases.set i .failed }
    else { s with phases := s.phases.set i .checked }
  | some .checked =>
    { broadcaster := some i, phases := s.phases.set i .succeeded }
  | _ => s

def raceRun (s : BroadcastRace) (sched : List Nat) : BroadcastRace :=
  sched.foldl raceStep s

/-! ## Session lifecycle and cleanup (src/main.go 64-148)

After a successful room lookup and upgrade, `joinRoom` attaches the
endpoint to the room (publisher slot for a broadcaster, listener set for
a listener), runs `handleSignaling` until the transport read fails, and
then unwinds: the deferred `pc.Close()` fires the connection-state
callback — registered only on the listener path (lines 138-144), where
it deletes the endpoint from `room.Listeners`.  No code anywhere clears
`room.Broadcaster`. -/

structure SessionResult where
  room : Room
  endpointReleased : Bool
  signaling : LoopResult
deriving DecidableEq, Repr

/-- A whole session of `joinRoom` after a successful lookup, for an
endpoint `pcId` whose broadcaster check (if any) passed: role-dependent
attach, the signaling loop over the transport events, then the
terminating path's cleanup. -/
def runSession (room : Room) (pcId : Nat) (isBroadcaster : Bool)
    (events : List InEvent) : SessionResult :=
  let attached :=
    if isBroadcaster then { room with broadcaster := some pcId }
    else if pcId ∈ room.listeners then room
    else { room with listeners := room.listeners ++ [pcId] }
  let res := handleSignaling isBroadcaster initPC events
  let cleaned :=
    if isBroadcaster then attached
    else { attached with listeners := attached.listeners.erase pcId }
  ⟨cleaned, true, res⟩

/-! ## Track fan-out (src/main.go 105-122)

`OnTrack` snapshots `room.Listeners` under the read lock and spawns one
`forwardTrack` task per listener present at that moment; a listener that
joins later mutates `room.Listeners` but nothing ever re-runs fan-out
for an already-started track. -/

inductive RoomEvent where
  | listenerJoin (l : Nat)
  | listenerLeave (l : Nat)
  | trackStarted (t : Nat)
deriving DecidableEq, Repr

/-- `listeners` mirrors `room.Listeners`; `tasks` records the
`(track, listener)` pairs for which a `forwardTrack` goroutine was
spawned. -/
structure FanState where
  listeners : List Nat
  tasks : List (Nat × Nat)
deriving DecidableEq, Repr

def fanStep (s : FanState) : RoomEvent → FanState
  | .listenerJoin l =>
    if l ∈ s.listeners then s else { s with listeners := s.listeners ++ [l] }
  | .listenerLeave l => { s with listeners := s.listeners.erase l }
  | .trackStarted t =>
    { s with tasks := s.tasks ++ s.listeners.map (fun l => (t, l)) }

def fanRun (s : FanState) (evs : List RoomEvent) : FanState :=
  evs.foldl fanStep s

/-! ## The track forwarder (src/main.go 151-177)

`forwardTrack` allocates one 1400-byte buffer, and per inbound frame
copies the frame payload into it and writes `rtpBuf[:n]` as the outbound
sample, where `n` is the payload size reported by the read.  Go slicing
`rtpBuf[:n]` panics when `n` exceeds the buffer's capacity 1400; the
model returns the samples written before the panic plus a panic flag. -/

structure MediaFrame where
  payload : List Nat
  duration : Nat
deriving DecidableEq, Repr

structure Sample where
  data : List Nat
  duration : Nat
deriving DecidableEq, Repr

/-- Go's `copy(dst, src)`: copies `min (len dst) (len src)` elements,
leaving the rest of `dst` unchanged. -/
def goCopy (dst src : List Nat) : List Nat :=
  src.take (min dst.length src.length) ++ dst.drop (min dst.length src.length)

/-- Go's `l[:n]` on a slice with `cap l = len l`: panics when
`n > len l`. -/
def goSliceTo (l : List Nat) (n : Nat) : Option (List Nat) :=
  if n ≤ l.length then some (l.take n) else none

/-- The read/write loop of `forwardTrack` over the frames successfully
read from the publisher track (a read error ends the loop).  Returns the
samples written and whether the task panicked. -/
def forwardLoop (buf : List Nat) : List MediaFrame → List Sample × Bool
  | [] => ([], false)
  | f :: rest =>
    let n := f.payload.length
    let buf2 := goCopy buf f.payload
    match goSliceTo buf2 n with
    | none => ([], true)
    | some d =>
      let r := forwardLoop buf2 rest
      (⟨d, f.duration⟩ :: r.1, r.2)

/-- `forwardTrack` with track creation and attachment succeeding: run the
forwarding loop with the fresh 1400-byte buffer. -/
def forwardTrack (frames : List MediaFrame) : List Sample × Bool :=
  forwardLoop (List.replicate 1400 0) frames

/-! ## Shared concrete frames -/

/-- A client `offer` frame with the given SDP payload:
`\x7b"type":"offer","sdp":...\x7d`. -/
def offerFrameWith (sdp : J) : InboundMsg :=
  .json (J.obj (.cons "type" (J.str "offer") (.cons "sdp" sdp .nil)))

/-- A client `answer` frame with the given SDP payload. -/
def answerFrameWith (sdp : J) : InboundMsg :=
  .json (J.obj (.cons "type" (J.str "answer") (.cons "sdp" sdp .nil)))

/-- A well-formed offer frame: the `sdp` payload unmarshals as a
`webrtc.SessionDescription` of type `offer`. -/
def wellFormedOffer : InboundMsg :=
  offerFrameWith (J.obj (.cons "type" (J.str "offer")
    (.cons "sdp" (J.str "v=0") .nil)))

/-- The successive 6-byte draws a sequence of `createRoom` calls takes
from the random stream, in call order. -/
def drawsList (rng : Nat → Nat) : Nat → Nat → List (List Nat)
  | _, 0 => []
  | pos, n + 1 => drawBytes rng pos 6 :: drawsList rng (pos + 6) n

/-- A registry already mapping the id the all-zero stream generates, to a
non-empty room. -/
def collidedReg : Registry :=
  [("000000000000", ⟨"000000000000", some 3, [5]⟩)]

/-! ## Claim theorems -/

/-- Claim C1 (code bug evidence).  Two concurrent `role=broadcaster` join
attempts on a fresh room, interleaved as check A, check B, assign A,
assign B (schedule `[0, 1, 0, 1]`): both attempts pass the unlocked
`room.Broadcaster != nil` check and both perform the locked assignment,
so both succeed and neither receives the AlreadyPublishing rejection;
attempt 1's endpoint silently overwrites attempt 0's. -/
theorem joinRoom_concurrent_broadcasters_both_succeed :
    raceRun ⟨none, [.start, .start]⟩ [0, 1, 0, 1] =
      ⟨some 1, [.succeeded, .succeeded]⟩ := by
  rfl

/-- Claim C2 (code bug evidence).  A publisher session receiving a
well-formed `offer` frame performs no negotiation call and sends no
`answer` back: `msgType` is the raw JSON text of the `type` field — the
seven characters `"offer"` including the quotes — so no switch case
matches and the frame falls through. -/
theorem offer_frame_produces_no_answer (pc : PCState) :
    handleMessage true pc wellFormedOffer = (pc, []) := by
  rfl

/-- Claim C4 (code bug evidence).  A broadcaster session on room `r`
(endpoint 7) whose transport read fails: the endpoint is released on the
terminating path, but the room's publisher slot is never detached —
`room.Broadcaster` still holds endpoint 7 after the session ends. -/
theorem broadcaster_cleanup_leaves_publisher_attached :
    (runSession ⟨"r", none, []⟩ 7 true [.readErr]).room.broadcaster = some 7 ∧
    (runSession ⟨"r", none, []⟩ 7 true [.readErr]).endpointReleased = true := by
  exact ⟨rfl, rfl⟩

/-- Claim C5 (code bug evidence).  A publisher session receiving a
malformed frame, then a well-formed `offer`, then a read error: the
malformed frame is indeed dropped silently and the loop continues to the
next frame (terminating only at the read error), but the subsequent
valid offer is also dropped — state unchanged, nothing sent — because
the type-tag comparison never matches. -/
theorem malformed_then_valid_offer_unprocessed :
    handleSignaling true initPC
      [.frame .malformed, .frame wellFormedOffer, .readErr] =
      ⟨initPC, [], true⟩ := by
  rfl

/-- Claim C6.  Role-inapplicable frames are no-ops: an `offer` frame on a
subscriber session and an `answer` frame on a publisher session leave
the endpoint state (including its call log) unchanged, send nothing
back, and the loop continues exactly as if the frame had not arrived. -/
theorem role_inapplicable_frames_are_noops (sdp : J) (pc : PCState)
    (rest : List InEvent) :
    handleMessage false pc (offerFrameWith sdp) = (pc, []) ∧
    handleMessage true pc (answerFrameWith sdp) = (pc, []) ∧
    handleSignaling false pc (.frame (offerFrameWith sdp) :: rest) =
      handleSignaling false pc rest ∧
    handleSignaling true pc (.frame (answerFrameWith sdp) :: rest) =
      handleSignaling true pc rest := by
  refine ⟨rfl, rfl, ?_, ?_⟩ <;> rfl

/-- The forwarder loop invariant: with a 1400-byte buffer and every
payload within it, each frame is re-emitted with exactly its payload
bytes and duration, and no panic occurs. -/
theorem forwardLoop_preserves (frames : List MediaFrame) :
    ∀ buf : List Nat, buf.length = 1400 →
    (∀ f ∈ frames, f.payload.length ≤ 1400) →
    forwardLoop buf frames =
      (frames.map (fun f => Sample.mk f.payload f.duration), false) := by
  induction frames with
  | nil => intro buf _ _; rfl
  | cons f rest ih =>
    intro buf hb hf
    have hp : f.payload.length ≤ 1400 := hf f (by simp)
    have hmin : min buf.length f.payload.length = f.payload.length := by
      rw [hb]; exact Nat.min_eq_right hp
    have hbuf2 : goCopy buf f.payload = f.payload ++ buf.drop f.payload.length := by
      simp [goCopy, hmin]
    have hlen2 : (goCopy buf f.payload).length = 1400 := by
      rw [hbuf2]; simp [hb]; omega
    have hslice :
        goSliceTo (goCopy buf f.payload) f.payload.length = some f.payload := by
      unfold goSliceTo
      rw [if_pos (by rw [hlen2]; exact hp)]
      rw [hbuf2]
      congr 1
      exact List.take_left _ _
    show forwardLoop buf (f :: rest) = _
    simp only [forwardLoop, hslice, List.map_cons]
    rw [ih (goCopy buf f.payload) hlen2 (fun g hg => hf g (by simp [hg]))]

set_option maxRecDepth 40000 in
/-- Claim C3 (counterexample).  An inbound frame whose payload exceeds
the forwarder's 1400-byte buffer: `rtpBuf[:n]` with `n = 1401` is out of
range, the task panics, and no sample is emitted — in particular the
output is not the one sample preserving the payload that the claim
requires. -/
theorem forwardTrack_drops_oversized_frame :
    forwardTrack [⟨List.replicate 1401 1, 5⟩] = ([], true) ∧
    (([], true) : List Sample × Bool) ≠
      ([Sample.mk (List.replicate 1401 1) 5], false) := by
  exact ⟨rfl, by simp⟩

/-- Claim C3 (amended).  For every sequence of inbound frames in which
each payload is at most 1400 bytes (the forwarder's buffer size), the
task emits one sample per frame, each with exactly the frame's payload
bytes and its duration, and does not panic. -/
theorem forwardTrack_preserves_bounded_payloads (frames : List MediaFrame)
    (h : ∀ f ∈ frames, f.payload.length ≤ 1400) :
    forwardTrack frames =
      (frames.map (fun f => Sample.mk f.payload f.duration), false) :=
  forwardLoop_preserves frames (List.replicate 1400 0)
    (by rw [List.length_replicate]) h

theorem forwardTrack_preserves_bounded_payloads_witness :
    (∀ f ∈ [MediaFrame.mk [1, 2, 3] 7], f.payload.length ≤ 1400) ∧
    forwardTrack [MediaFrame.mk [1, 2, 3] 7] = ([Sample.mk [1, 2, 3] 7], false) :=
  ⟨by decide, forwardTrack_preserves_bounded_payloads [⟨[1, 2, 3], 7⟩] (by decide)⟩

/-- An id absent from the responses of a run of `createRoom` calls is
looked up exactly as in the starting registry. -/
theorem lookup_createRooms_not_mem (rng : Nat → Nat) :
    ∀ (n pos : Nat) (reg : Registry) (id : String),
      id ∉ (createRooms rng pos reg n).2 →
      lookupRoom (createRooms rng pos reg n).1 id = lookupRoom reg id := by
  intro n
  induction n with
  | zero => intro pos reg id _; rfl
  | succ n ih =>
    intro pos reg id h
    simp only [createRooms, List.mem_cons] at h
    push_neg at h
    show lookupRoom (createRooms rng (pos + 6) _ n).1 id = _
    rw [ih (pos + 6) _ id h.2]
    simp only [insertRoom, lookupRoom]
    rw [if_neg (fun hc => h.1 hc.symm)]

/-- Claim C7.  A join request naming a room id that no `createRoom` call
ever returned (starting from the empty registry) is rejected before the
websocket upgrade with status 404 and the plain-text body
`Room not found`; the lookup itself yields no room, and the rejection
path is a pure function of the registry, so no state changes. -/
theorem unknown_room_rejected_with_404 (rng : Nat → Nat) (n : Nat) (id : String)
    (h : id ∉ (createRooms rng 0 [] n).2) :
    lookupRoom (createRooms rng 0 [] n).1 id = none ∧
    joinRoomEntry (createRooms rng 0 [] n).1 id =
      .notFound 404 "Room not found" := by
  have hl : lookupRoom (createRooms rng 0 [] n).1 id = none :=
    lookup_createRooms_not_mem rng n 0 [] id h
  exact ⟨hl, by simp [joinRoomEntry, hl]⟩

theorem unknown_room_rejected_with_404_witness :
    "zz" ∉ (createRooms (fun i => i) 0 [] 1).2 ∧
    (lookupRoom (createRooms (fun i => i) 0 [] 1).1 "zz" = none ∧
     joinRoomEntry (createRooms (fun i => i) 0 [] 1).1 "zz" =
       .notFound 404 "Room not found") :=
  ⟨by decide, unknown_room_rejected_with_404 (fun i => i) 1 "zz" (by decide)⟩

/-! ### Hex-encoding injectivity, for room-id distinctness -/

theorem hexDigit_inj_fin : ∀ a b : Fin 16, hexDigit a.val = hexDigit b.val → a = b := by
  decide

theorem hexDigit_inj {a b : Nat} (ha : a < 16) (hb : b < 16)
    (h : hexDigit a = hexDigit b) : a = b :=
  congrArg Fin.val (hexDigit_inj_fin ⟨a, ha⟩ ⟨b, hb⟩ h)

theorem hexChars_injOn : ∀ xs : List Nat, (∀ b ∈ xs, b < 256) →
    ∀ ys : List Nat, (∀ b ∈ ys, b < 256) →
    hexChars xs = hexChars ys → xs = ys := by
  intro xs
  induction xs with
  | nil =>
    intro _ ys _ h
    cases ys with
    | nil => rfl
    | cons b ys => exact absurd h (by simp [hexChars])
  | cons a xs ih =>
    intro hxs ys hys h
    cases ys with
    | nil => exact absurd h (by simp [hexChars])
    | cons b ys =>
      simp only [hexChars, List.cons.injEq] at h
      obtain ⟨h1, h2, h3⟩ := h
      have ha : a < 256 := hxs a (by simp)
      have hb : b < 256 := hys b (by simp)
      have hd1 : a / 16 = b / 16 :=
        hexDigit_inj (by omega) (by omega) h1
      have hd2 : a % 16 = b % 16 :=
        hexDigit_inj (by omega) (by omega) h2
      have hab : a = b := by omega
      subst hab
      rw [ih (fun c hc => hxs c (by simp [hc])) ys
        (fun c hc => hys c (by simp [hc])) h3]

theorem hexEncode_injOn {xs ys : List Nat} (hxs : ∀ b ∈ xs, b < 256)
    (hys : ∀ b ∈ ys, b < 256) (h : hexEncode xs = hexEncode ys) : xs = ys := by
  apply hexChars_injOn xs hxs ys hys
  have hd := congrArg String.data h
  simpa [hexEncode] using hd

theorem drawBytes_lt (rng : Nat → Nat) (pos n : Nat) :
    ∀ b ∈ drawBytes rng pos n, b < 256 := by
  intro b hb
  simp only [drawBytes, List.mem_map, List.mem_range] at hb
  obtain ⟨i, _, hi⟩ := hb
  omega

theorem drawsList_valid (rng : Nat → Nat) :
    ∀ (n pos : Nat), ∀ xs ∈ drawsList rng pos n, ∀ b ∈ xs, b < 256 := by
  intro n
  induction n with
  | zero => intro pos xs hxs; exact absurd hxs (by simp [drawsList])
  | succ n ih =>
    intro pos xs hxs
    simp only [drawsList, List.mem_cons] at hxs
    cases hxs with
    | inl h => exact h ▸ drawBytes_lt rng pos 6
    | inr h => exact ih (pos + 6) xs h

/-- The ids a run of `createRoom` calls returns are exactly the hex
encodings of its successive 6-byte draws. -/
theorem createRooms_ids (rng : Nat → Nat) : ∀ (n pos : Nat) (reg : Registry),
    (createRooms rng pos reg n).2 = (drawsList rng pos n).map hexEncode := by
  intro n
  induction n with
  | zero => intro pos reg; rfl
  | succ n ih =>
    intro pos reg
    simp only [createRooms, drawsList, List.map_cons, List.cons.injEq]
    exact ⟨rfl, ih (pos + 6) _⟩

/-- Claim C8 (counterexample).  Over a random source that yields the
byte 0 forever, two successive `createRoom` calls both return the
identifier `000000000000`: the returned identifiers of a sequence of
calls are not always pairwise distinct (the code never re-draws on
collision). -/
theorem createRoom_ids_collide_on_constant_stream :
    (createRooms (fun _ => 0) 0 [] 2).2 = ["000000000000", "000000000000"] ∧
    ¬ (createRooms (fun _ => 0) 0 [] 2).2.Pairwise (fun a b => a ≠ b) := by
  exact ⟨by decide, by decide⟩

/-- Claim C8 (amended).  `createRoom` always succeeds: it draws a random
identifier, inserts the empty room (no publisher, empty subscriber set)
under it, and returns the identifier together with the join URL; and the
identifiers of a sequence of calls are pairwise distinct whenever the
underlying random draws are pairwise distinct. -/
theorem createRoom_succeeds_and_ids_distinct :
    (∀ (rng : Nat → Nat) (pos : Nat) (reg : Registry),
      (createRoom rng pos reg).2.2 =
        "https://your-app.fly.dev/r/" ++ (createRoom rng pos reg).2.1 ∧
      lookupRoom (createRoom rng pos reg).1.1 (createRoom rng pos reg).2.1 =
        some (emptyRoom (createRoom rng pos reg).2.1)) ∧
    (∀ (rng : Nat → Nat) (pos n : Nat) (reg : Registry),
      (drawsList rng pos n).Pairwise (fun a b => a ≠ b) →
      (createRooms rng pos reg n).2.Pairwise (fun a b => a ≠ b)) := by
  constructor
  · intro rng pos reg
    exact ⟨rfl, by simp [createRoom, insertRoom, lookupRoom]⟩
  · intro rng pos n reg h
    rw [createRooms_ids, List.pairwise_map]
    refine List.Pairwise.imp_of_mem ?_ h
    intro a b ha hb hab he
    exact hab (hexEncode_injOn
      (drawsList_valid rng n pos a ha) (drawsList_valid rng n pos b hb) he)

theorem createRoom_succeeds_and_ids_distinct_witness :
    (drawsList (fun i => i) 0 2).Pairwise (fun a b => a ≠ b) ∧
    (createRooms (fun i => i) 0 [] 2).2.Pairwise (fun a b => a ≠ b) :=
  ⟨by decide, createRoom_succeeds_and_ids_distinct.2 (fun i => i) 0 2 [] (by decide)⟩

/-! ### Fan-out snapshot lemmas -/

/-- A listener that never joins stays out of the listener set, and no
forwarding task is ever created for it. -/
theorem fan_absent_listener_inv (t l : Nat) : ∀ (evs : List RoomEvent) (s : FanState),
    l ∉ s.listeners → (t, l) ∉ s.tasks →
    (∀ e ∈ evs, e ≠ RoomEvent.listenerJoin l) →
    l ∉ (fanRun s evs).listeners ∧ (t, l) ∉ (fanRun s evs).tasks := by
  intro evs
  induction evs with
  | nil => intro s h1 h2 _; exact ⟨h1, h2⟩
  | cons e evs ih =>
    intro s h1 h2 h3
    have he : e ≠ RoomEvent.listenerJoin l := h3 e (by simp)
    have hrest : ∀ e' ∈ evs, e' ≠ RoomEvent.listenerJoin l :=
      fun e' h' => h3 e' (by simp [h'])
    show l ∉ (fanRun (fanStep s e) evs).listeners ∧
      (t, l) ∉ (fanRun (fanStep s e) evs).tasks
    cases e with
    | listenerJoin l2 =>
      have hne : l2 ≠ l := fun hc => he (by rw [hc])
      refine ih (fanStep s (.listenerJoin l2)) ?_ ?_ hrest
      · simp only [fanStep]
        by_cases hmem : l2 ∈ s.listeners
        · simpa [hmem] using h1
        · simp only [if_neg hmem, List.mem_append, List.mem_singleton]
          rintro (hc | hc)
          · exact h1 hc
          · exact hne hc.symm
      · simp only [fanStep]
        split <;> exact h2
    | listenerLeave l2 =>
      refine ih (fanStep s (.listenerLeave l2)) ?_ h2 hrest
      simp only [fanStep]
      exact fun hc => h1 (List.mem_of_mem_erase hc)
    | trackStarted t2 =>
      refine ih (fanStep s (.trackStarted t2)) h1 ?_ hrest
      simp only [fanStep, List.mem_append, List.mem_map]
      rintro (hc | ⟨x, hx, hpair⟩)
      · exact h2 hc
      · cases hpair
        exact h1 hx

/-- No event other than the start of track `t` can create a forwarding
task for track `t`. -/
theorem fan_no_new_tasks_for_track (t l : Nat) : ∀ (evs : List RoomEvent) (s : FanState),
    (t, l) ∉ s.tasks →
    (∀ e ∈ evs, e ≠ RoomEvent.trackStarted t) →
    (t, l) ∉ (fanRun s evs).tasks := by
  intro evs
  induction evs with
  | nil => intro s h _; exact h
  | cons e evs ih =>
    intro s h1 h2
    have he : e ≠ RoomEvent.trackStarted t := h2 e (by simp)
    have hrest : ∀ e' ∈ evs, e' ≠ RoomEvent.trackStarted t :=
      fun e' h' => h2 e' (by simp [h'])
    show (t, l) ∉ (fanRun (fanStep s e) evs).tasks
    cases e with
    | listenerJoin l2 =>
      refine ih _ ?_ hrest
      simp only [fanStep]
      split <;> exact h1
    | listenerLeave l2 => exact ih _ h1 hrest
    | trackStarted t2 =>
      have hne : t2 ≠ t := fun hc => he (by rw [hc])
      refine ih _ ?_ hrest
      simp only [fanStep, List.mem_append, List.mem_map]
      rintro (hc | ⟨x, _, hpair⟩)
      · exact h1 hc
      · exact hne (congrArg Prod.fst hpair)

/-- Claim C9.  The subscribers receiving forwarding tasks for a track
are fixed at the moment the track starts: a listener `l` not present
when `trackStarted t` fires (it neither was attached initially nor
joined during `pre`) never gets a `(t, l)` forwarding task, however it
joins or leaves during `post`, as long as track `t` does not start
again. -/
theorem late_subscriber_not_attached (pre post : List RoomEvent) (t l : Nat)
    (s : FanState)
    (h1 : l ∉ s.listeners) (h2 : (t, l) ∉ s.tasks)
    (h3 : ∀ e ∈ pre, e ≠ RoomEvent.listenerJoin l)
    (h4 : ∀ e ∈ post, e ≠ RoomEvent.trackStarted t) :
    (t, l) ∉ (fanRun s (pre ++ RoomEvent.trackStarted t :: post)).tasks := by
  have hmid := fan_absent_listener_inv t l pre s h1 h2 h3
  have hrun : fanRun s (pre ++ RoomEvent.trackStarted t :: post) =
      fanRun (fanStep (fanRun s pre) (RoomEvent.trackStarted t)) post := by
    simp [fanRun, List.foldl_append]
  rw [hrun]
  refine fan_no_new_tasks_for_track t l post _ ?_ h4
  simp only [fanStep, List.mem_append, List.mem_map]
  rintro (hc | ⟨x, hx, hpair⟩)
  · exact hmid.2 hc
  · cases hpair
    exact hmid.1 hx

theorem late_subscriber_not_attached_witness :
    ((1 : Nat) ∉ (FanState.mk [] []).listeners) ∧
    ((0, 1) ∉ (FanState.mk [] []).tasks) ∧
    (∀ e ∈ ([] : List RoomEvent), e ≠ RoomEvent.listenerJoin 1) ∧
    (∀ e ∈ [RoomEvent.listenerJoin 1], e ≠ RoomEvent.trackStarted 0) ∧
    (0, 1) ∉ (fanRun ⟨[], []⟩
      ([] ++ RoomEvent.trackStarted 0 :: [RoomEvent.listenerJoin 1])).tasks :=
  ⟨by decide, by decide, by decide, by decide,
   late_subscriber_not_attached [] [RoomEvent.listenerJoin 1] 0 1 ⟨[], []⟩
     (by decide) (by decide) (by decide) (by decide)⟩

/-- Claim C10.  After any `createRoom` call the registry maps the
returned identifier to a brand-new empty room — also when that
identifier was already mapped, in which case the previous room (with its
publisher and subscribers) is silently shadowed and unreachable through
the registry — while every other identifier still resolves as before. -/
theorem createRoom_overwrites_existing_room (rng : Nat → Nat) (pos : Nat)
    (reg : Registry) (k : String) (hk : k ≠ (createRoom rng pos reg).2.1) :
    lookupRoom (createRoom rng pos reg).1.1 (createRoom rng pos reg).2.1 =
      some (emptyRoom (createRoom rng pos reg).2.1) ∧
    lookupRoom (createRoom rng pos reg).1.1 k = lookupRoom reg k := by
  constructor
  · simp [createRoom, insertRoom, lookupRoom]
  · simp only [createRoom, insertRoom, lookupRoom]
    rw [if_neg (fun hc => hk hc.symm)]

theorem createRoom_overwrites_existing_room_witness :
    "zz" ≠ (createRoom (fun _ => 0) 0 collidedReg).2.1 ∧
    (lookupRoom (createRoom (fun _ => 0) 0 collidedReg).1.1
        (createRoom (fun _ => 0) 0 collidedReg).2.1 =
      some (emptyRoom (createRoom (fun _ => 0) 0 collidedReg).2.1) ∧
     lookupRoom (createRoom (fun _ => 0) 0 collidedReg).1.1 "zz" =
      lookupRoom collidedReg "zz") :=
  ⟨by decide,
   createRoom_overwrites_existing_room (fun _ => 0) 0 collidedReg "zz" (by decide)⟩

end MiniMixlr
